import Mathlib

/-!
# NewsLocator — verification of the batched inference-annotation pipeline

Shallow embedding of `src/analyzer.py` (module `src.analyzer`): the
`LocationAnalyzer.analyze_article` / `analyze_batch` methods and the
`analyze_locations` driver, together with the pieces of Python semantics they
rely on (dict copy/update, `str.strip`, substring search, `", ".join`,
`json.loads`, the tenacity retry wrapper, exceptions).

Modelling conventions:
* Python values flowing through article records and parsed JSON are modelled
  by the inductive `NL.Json` (dicts are ordered association lists, matching
  Python dict insertion-order semantics).
* Exceptions are modelled by `Except NL.PyExc`; a `try/except` block is a
  `match` on the `Except` value of the guarded region.
* The external chat-completion call is abstracted as an oracle
  (`NL.ServiceOutcome` per attempt): it either returns the response text
  (`response.choices[0].message.content`, the empty-choices case being the
  empty string) or raises.  Everything after the call is modelled from the
  source.
* `json.loads` is modelled by a strict recursive-descent parser
  (`NL.jloads`).  Numeric literals are restricted to integers (the claims
  involve no non-integer numerals) and error messages are abbreviated
  (e.g. "Expecting value" without line/column positions).
* Wall-clock sleeps (`time.sleep(1)` between articles and
  `time.sleep(INTER_BATCH_DELAY)` between batches) are recorded as events in
  a trace (`NL.Ev`); the backoff sleeps inside the tenacity wrapper are not
  traced, no claim mentions them positionally.
-/

namespace NL

/-- Python values as passed through article records and JSON parsing:
`null`, booleans, integers, strings, lists, and dicts (ordered assoc lists). -/
inductive Json where
  | null : Json
  | bool : Bool → Json
  | num : Int → Json
  | str : String → Json
  | arr : List Json → Json
  | obj : List (String × Json) → Json

/-- An article record / annotation record: a Python dict with string keys
(`Dict[str, Any]` in the source). -/
abbrev Rec := List (String × Json)

/-- Python dict lookup (`d[k]` when present / `k in d`): first binding wins;
`dictSet` below keeps keys unique, mirroring dict semantics. -/
def dictGet (k : String) : Rec → Option Json
  | [] => none
  | (k₂, v) :: rest => if k₂ = k then some v else dictGet k rest

/-- Python `d.get(k, default)`. -/
def dictGetD (r : Rec) (k : String) (d : Json) : Json :=
  (dictGet k r).getD d

/-- Python dict assignment `d[k] = v`: updates the value in place if the key
exists (keeping its position, as Python dicts do), else appends. -/
def dictSet (r : Rec) (k : String) (v : Json) : Rec :=
  match r with
  | [] => [(k, v)]
  | (k₂, v₂) :: rest => if k₂ = k then (k, v) :: rest else (k₂, v₂) :: dictSet rest k v

/-- `k in d` for dicts. -/
def hasKey (k : String) (r : Rec) : Bool :=
  (dictGet k r).isSome

/-- The spec's "sequence of strings" (spec §3: `cities` is a sequence of
city-name strings). -/
def isStrList : Json → Bool
  | .arr xs => xs.all (fun v => match v with | .str _ => true | _ => false)
  | _ => false

/-- Python exceptions distinguished by the handlers in `analyze_article` /
`analyze_batch`: `json.JSONDecodeError` (caught by the inner handler at
analyzer.py:189), `TypeError`/`KeyError` raised by the dynamic dict and
string operations, service-call failures, and `tenacity.RetryError`
(wrapping the last attempt's exception once `stop_after_attempt(3)` is
exhausted). -/
inductive PyExc where
  | jsonDecodeError : String → PyExc
  | typeError : String → PyExc
  | keyError : String → PyExc
  | serviceError : String → PyExc
  | retryError : PyExc → PyExc

/-- `str(e)` for the exceptions above (the `RetryError` rendering is
abbreviated; CPython prints a future object). -/
def pyStr : PyExc → String
  | .jsonDecodeError m => m
  | .typeError m => m
  | .keyError k => "KeyError: " ++ k
  | .serviceError m => m
  | .retryError e => "RetryError: " ++ pyStr e

/-- `e` is a `json.JSONDecodeError` (the only exception class the inner
`except` at analyzer.py:189 catches). -/
def isJsonDecodeError : PyExc → Bool
  | .jsonDecodeError _ => true
  | _ => false

/-- Python type name of a value, used in `TypeError` messages. -/
def typeName : Json → String
  | .null => "NoneType"
  | .bool _ => "bool"
  | .num _ => "int"
  | .str _ => "str"
  | .arr _ => "list"
  | .obj _ => "dict"

/-! ## Python string helpers (`str.strip`, substring search) -/

/-- Characters removed by Python `str.strip()` (also the class `\s` matches
in the `re` module). -/
def pyWs (c : Char) : Bool :=
  c == ' ' || c == '\t' || c == '\n' || c == '\r' || c == '\x0b' || c == '\x0c'

/-- `str.strip()` on a character list. -/
def pyStripL (l : List Char) : List Char :=
  ((l.dropWhile pyWs).reverse.dropWhile pyWs).reverse

/-- Python `str.strip()`. -/
def pyStrip (s : String) : String :=
  ⟨pyStripL s.toList⟩

/-- Index of the first occurrence of `needle` in a character list
(Python `haystack.find(needle)`, with `none` for `-1`). -/
def findSub (needle : List Char) : List Char → Option Nat
  | [] => if needle.isEmpty then some 0 else none
  | c :: rest =>
    if needle.isPrefixOf (c :: rest) then some 0
    else (findSub needle rest).map (· + 1)

/-- Python substring test `needle in haystack`. -/
def strContains (hay needle : String) : Bool :=
  (findSub needle.toList hay.toList).isSome

/-- Python `s.startswith(p)`. -/
def pyStartsWith (s p : String) : Bool :=
  p.toList.isPrefixOf s.toList

/-- `", ".join(x)` under Python iteration semantics: joins list elements when
all are strings, joins the characters of a string, joins the keys of a dict,
and raises `TypeError` otherwise (analyzer.py:134). -/
def pyJoin (sep : String) : Json → Except PyExc String
  | .arr items =>
    let rec collect : List Json → Except PyExc (List String)
      | [] => .ok []
      | .str s :: rest => (collect rest).map (s :: ·)
      | v :: _ => .error (.typeError ("sequence item: expected str instance, " ++ typeName v ++ " found"))
    (collect items).map (String.intercalate sep)
  | .str s => .ok (String.intercalate sep (s.toList.map Char.toString))
  | .obj kvs => .ok (String.intercalate sep (kvs.map Prod.fst))
  | v => .error (.typeError ("can only join an iterable, not " ++ typeName v))

/-! ## `json.loads` model

Strict recursive-descent parser, fuelled for termination.  JSON whitespace is
the four characters `json.loads` skips. -/

/-- JSON insignificant whitespace. -/
def jsonWs (c : Char) : Bool :=
  c == ' ' || c == '\t' || c == '\n' || c == '\r'

/-- Skip JSON whitespace. -/
def jskip (l : List Char) : List Char :=
  l.dropWhile jsonWs

/-- Hexadecimal digit test. -/
def isHex (c : Char) : Bool :=
  c.isDigit || (c ≥ 'a' && c ≤ 'f') || (c ≥ 'A' && c ≤ 'F')

/-- Decode one string body after the opening quote, handling the JSON escape
sequences (`\u` escapes take four hex digits). -/
def parseStrBody (acc : List Char) : List Char → Except String (String × List Char)
  | [] => .error "Unterminated string"
  | '"' :: rest => .ok (⟨acc.reverse⟩, rest)
  | '\\' :: esc => match esc with
    | [] => .error "Unterminated string"
    | 'u' :: a :: b :: c :: d :: rest =>
      if isHex a && isHex b && isHex c && isHex d then
        let n := (((a.toNat * 16 + b.toNat) * 16 + c.toNat) * 16 + d.toNat) % 65536
        parseStrBody (Char.ofNat n :: acc) rest
      else .error "Invalid unicode escape"
    | e :: rest =>
      if e == '"' then parseStrBody ('"' :: acc) rest
      else if e == '\\' then parseStrBody ('\\' :: acc) rest
      else if e == '/' then parseStrBody ('/' :: acc) rest
      else if e == 'n' then parseStrBody ('\n' :: acc) rest
      else if e == 't' then parseStrBody ('\t' :: acc) rest
      else if e == 'r' then parseStrBody ('\r' :: acc) rest
      else if e == 'b' then parseStrBody ('\x08' :: acc) rest
      else if e == 'f' then parseStrBody ('\x0c' :: acc) rest
      else .error "Invalid escape"
  | c :: rest => parseStrBody (c :: acc) rest

/-- Consume a run of decimal digits, accumulating their value. -/
def parseDigits (acc : Nat) : List Char → (Nat × List Char)
  | [] => (acc, [])
  | c :: rest =>
    if c.isDigit then parseDigits (acc * 10 + (c.toNat - 48)) rest
    else (acc, c :: rest)

/-- Parse an integer numeral.  Non-integer numerals (a fraction or exponent
part) are outside the model and reported as parse errors; no claim involves
them. -/
def parseNum : List Char → Except String (Json × List Char)
  | '-' :: rest =>
    match rest with
    | c :: _ =>
      if c.isDigit then
        let (n, r) := parseDigits 0 rest
        match r with
        | c₂ :: _ =>
          if c₂ == '.' || c₂ == 'e' || c₂ == 'E' then .error "Non-integer numerals not modelled"
          else .ok (Json.num (-(n : Int)), r)
        | [] => .ok (Json.num (-(n : Int)), [])
      else .error "Expecting value"
    | [] => .error "Expecting value"
  | l =>
    match l with
    | c :: _ =>
      if c.isDigit then
        let (n, r) := parseDigits 0 l
        match r with
        | c₂ :: _ =>
          if c₂ == '.' || c₂ == 'e' || c₂ == 'E' then .error "Non-integer numerals not modelled"
          else .ok (Json.num (n : Int), r)
        | [] => .ok (Json.num (n : Int), [])
      else .error "Expecting value"
    | [] => .error "Expecting value"

mutual

/-- Parse one JSON value (leading whitespace allowed). -/
def parseVal : Nat → List Char → Except String (Json × List Char)
  | 0, _ => .error "Nesting too deep"
  | fuel + 1, l =>
    match jskip l with
    | [] => .error "Expecting value"
    | c :: rest =>
      if c == '\x7b' then parseObjBody fuel rest
      else if c == '[' then parseArrBody fuel rest
      else if c == '"' then (parseStrBody [] rest).map (fun (s, r) => (Json.str s, r))
      else if c == 't' then
        if ['r', 'u', 'e'].isPrefixOf rest then .ok (Json.bool true, rest.drop 3)
        else .error "Expecting value"
      else if c == 'f' then
        if ['a', 'l', 's', 'e'].isPrefixOf rest then .ok (Json.bool false, rest.drop 4)
        else .error "Expecting value"
      else if c == 'n' then
        if ['u', 'l', 'l'].isPrefixOf rest then .ok (Json.null, rest.drop 3)
        else .error "Expecting value"
      else parseNum (c :: rest)

/-- Parse an object body after the opening brace. -/
def parseObjBody : Nat → List Char → Except String (Json × List Char)
  | 0, _ => .error "Nesting too deep"
  | fuel + 1, l =>
    match jskip l with
    | '\x7d' :: rest => .ok (Json.obj [], rest)
    | l₂ => parseMembers fuel [] l₂

/-- Parse the members of a non-empty object (duplicate keys follow dict
last-write-wins semantics, as in `json.loads`). -/
def parseMembers : Nat → List (String × Json) → List Char → Except String (Json × List Char)
  | 0, _, _ => .error "Nesting too deep"
  | fuel + 1, acc, l =>
    match jskip l with
    | '"' :: rest =>
      match parseStrBody [] rest with
      | .error m => .error m
      | .ok (k, r₂) =>
        match jskip r₂ with
        | ':' :: r₃ =>
          match parseVal fuel r₃ with
          | .error m => .error m
          | .ok (v, r₄) =>
            let acc₂ := dictSet acc k v
            match jskip r₄ with
            | ',' :: r₅ => parseMembers fuel acc₂ r₅
            | '\x7d' :: r₅ => .ok (Json.obj acc₂, r₅)
            | _ => .error "Expecting delimiter"
        | _ => .error "Expecting colon delimiter"
    | _ => .error "Expecting property name enclosed in double quotes"

/-- Parse the elements of an array after the opening bracket. -/
def parseArrBody : Nat → List Char → Except String (Json × List Char)
  | 0, _ => .error "Nesting too deep"
  | fuel + 1, l =>
    match jskip l with
    | ']' :: rest => .ok (Json.arr [], rest)
    | l₂ => parseElems fuel [] l₂

/-- Parse the elements of a non-empty array. -/
def parseElems : Nat → List Json → List Char → Except String (Json × List Char)
  | 0, _, _ => .error "Nesting too deep"
  | fuel + 1, acc, l =>
    match parseVal fuel l with
    | .error m => .error m
    | .ok (v, r) =>
      match jskip r with
      | ',' :: r₂ => parseElems fuel (v :: acc) r₂
      | ']' :: r₂ => .ok (Json.arr (v :: acc).reverse, r₂)
      | _ => .error "Expecting delimiter"

end

/-- `json.loads`: parse one value, then require only whitespace to remain
(else "Extra data", as CPython reports). -/
def jloadsS (s : String) : Except String Json :=
  match parseVal (4 * s.length + 16) s.toList with
  | .error m => .error m
  | .ok (v, rest) =>
    if (jskip rest).isEmpty then .ok v else .error "Extra data"

/-- `json.loads` with its failure as a `json.JSONDecodeError`. -/
def jloads (s : String) : Except PyExc Json :=
  match jloadsS s with
  | .error m => .error (.jsonDecodeError m)
  | .ok v => .ok v

/-! ## `LocationAnalyzer.analyze_article` (analyzer.py:117-207) -/

/-- The fenced-block extraction (analyzer.py:158-161): the content matched by
`re.search(r'```json\s*(.*?)\s*```', content, re.DOTALL)` — the text between
the first occurrence of ` ```json ` and the next ` ``` `, stripped (the lazy
group together with the `\s*` anchors).  `none` when the regex does not
match (no closing fence), in which case the code falls back to parsing the
whole content (analyzer.py:165). -/
def fencedSegment (content : String) : Option String :=
  let cs := content.toList
  match findSub ("```json".toList) cs with
  | none => none
  | some i =>
    let after := cs.drop (i + 7)
    match findSub ("```".toList) after with
    | none => none
    | some j => some ⟨pyStripL (after.take j)⟩

/-- JSON extraction and parsing (analyzer.py:153-175): fenced-block handling
first when ` ```json ` occurs in the content; otherwise strip the content, and
if it does not start with `{`, re-parse from the first `{` of the unstripped
content (falling back to the stripped content when there is none). -/
def extractAndParse (content : String) : Except PyExc Json :=
  if strContains content "```json" then
    match fencedSegment content with
    | some seg => jloads seg
    | none => jloads content
  else
    let jm := pyStrip content
    if pyStartsWith jm "\x7b" then jloads jm
    else
      match findSub ['\x7b'] content.toList with
      | some i => jloads ⟨content.toList.drop i⟩
      | none => jloads jm

/-- `key in result` under Python semantics (analyzer.py:178,180): key test on
dicts, element test on lists (a string never equals a number/bool/…),
substring test on strings, `TypeError` on non-iterables. -/
def pyContains (key : String) : Json → Except PyExc Bool
  | .obj kvs => .ok (kvs.any (fun kv => kv.1 == key))
  | .arr xs => .ok (xs.any (fun v => match v with | .str s => s == key | _ => false))
  | .str s => .ok (strContains s key)
  | v => .error (.typeError ("argument of type " ++ typeName v ++ " is not iterable"))

/-- `result[key] = v` under Python semantics (analyzer.py:179,181):
assignment on dicts; `TypeError` on lists (string index) and on every other
value. -/
def pySetItem (j : Json) (key : String) (v : Json) : Except PyExc Json :=
  match j with
  | .obj kvs => .ok (Json.obj (dictSet kvs key v))
  | .arr _ => .error (.typeError "list indices must be integers or slices, not str")
  | w => .error (.typeError (typeName w ++ " object does not support item assignment"))

/-- `result[key]` under Python semantics (analyzer.py:185-186). -/
def pyGetItem (j : Json) (key : String) : Except PyExc Json :=
  match j with
  | .obj kvs =>
    match dictGet key kvs with
    | some v => .ok v
    | none => .error (.keyError key)
  | w => .error (.typeError (typeName w ++ " is not subscriptable by str"))

/-- Field defaulting and attachment (analyzer.py:177-187): default a missing
`cities` key to `[]` and a missing `rationale` key to
`"No rationale provided"`, then extend a copy of the article with the two
fields.  Raises `TypeError` when the parsed value is not a dict. -/
def attachResult (article : Rec) (parsed : Json) : Except PyExc Rec :=
  Except.bind (pyContains "cities" parsed) fun hasC =>
  Except.bind (if hasC then .ok parsed else pySetItem parsed "cities" (Json.arr [])) fun r₁ =>
  Except.bind (pyContains "rationale" r₁) fun hasR =>
  Except.bind (if hasR then .ok r₁ else pySetItem r₁ "rationale" (Json.str "No rationale provided")) fun r₂ =>
  Except.bind (pyGetItem r₂ "cities") fun c =>
  Except.bind (pyGetItem r₂ "rationale") fun ra =>
  .ok (dictSet (dictSet article "cities" c) "rationale" ra)

/-- The degraded record of the inner `except json.JSONDecodeError` handler
(analyzer.py:189-198). -/
def parseErrRec (article : Rec) (msg : String) : Rec :=
  dictSet (dictSet (dictSet article "cities" (Json.arr []))
      "rationale" (Json.str "Error parsing analysis results"))
    "error" (Json.str msg)

/-- The degraded record of the outer `except Exception` handler
(analyzer.py:200-207).  Note: this handler does not set an `error` field. -/
def outerRec (article : Rec) (msg : String) : Rec :=
  dictSet (dictSet article "cities" (Json.arr []))
    "rationale" (Json.str ("Error: " ++ msg))

/-- The degraded record `analyze_batch` substitutes when `analyze_article`
raises (analyzer.py:236-241). -/
def analysisFailedRec (article : Rec) (msg : String) : Rec :=
  dictSet (dictSet (dictSet article "cities" (Json.arr []))
      "rationale" (Json.str "Analysis failed"))
    "error" (Json.str msg)

/-- One attempt of the external chat-completion call, abstracted: either the
response text `response.choices[0].message.content` (`""` when `choices` is
empty), or a raised exception rendered by `str`. -/
inductive ServiceOutcome where
  | ok : String → ServiceOutcome
  | raise : String → ServiceOutcome

/-- `", ".join(article.get("categories", []))` (analyzer.py:134) — the only
statement of `analyze_article` outside the `try` blocks that can raise. -/
def categoriesJoin (article : Rec) : Except PyExc String :=
  pyJoin ", " (dictGetD article "categories" (Json.arr []))

/-- The part of `analyze_article` from a successfully returned response text
onward (analyzer.py:153-198 together with the outer handler): extraction and
parsing, then defaulting/attachment; a `json.JSONDecodeError` is caught by
the inner handler (analyzer.py:189), any other exception of the inner `try`
(e.g. a `TypeError` from defaulting on a non-dict) by the outer
`except Exception` (analyzer.py:200).  Every case yields a record. -/
def innerHandled (article : Rec) (content : String) : Rec :=
  match (match extractAndParse content with
         | .error e => .error e
         | .ok parsed => attachResult article parsed : Except PyExc Rec) with
  | .ok r => r
  | .error (.jsonDecodeError m) => parseErrRec article m
  | .error e => outerRec article (pyStr e)

/-- One execution of the body of `analyze_article` (analyzer.py:117-207)
given the outcome of the service call.  The prompt formatting precedes the
`try`, so a `TypeError` from the categories join propagates; inside the
`try`, a raised service call is caught by the outer `except Exception`
(analyzer.py:200), and a returned response text is handled by
`innerHandled`. -/
def analyzeArticleBody (article : Rec) (svc : ServiceOutcome) : Except PyExc Rec :=
  match categoriesJoin article with
  | .error e => .error e
  | .ok _ =>
    match svc with
    | .raise msg => .ok (outerRec article msg)
    | .ok content => .ok (innerHandled article content)

/-- The tenacity wrapper on `analyze_article` (analyzer.py:112-116):
`stop_after_attempt(3)` with `retry_if_exception_type(Exception)` — up to
three executions of the body, re-attempting exactly when the previous
execution raised; after the third failure a `RetryError` wrapping the last
exception propagates (tenacity's default, `reraise` unset).  The attempt
oracle gives the service outcome of each attempt. -/
def retryCall (article : Rec) (svc : Nat → ServiceOutcome) : Except PyExc Rec :=
  match analyzeArticleBody article (svc 0) with
  | .ok r => .ok r
  | .error _ =>
    match analyzeArticleBody article (svc 1) with
    | .ok r => .ok r
    | .error _ =>
      match analyzeArticleBody article (svc 2) with
      | .ok r => .ok r
      | .error e => .error (.retryError e)

/-- Number of attempts the tenacity wrapper executes. -/
def attemptsUsed (article : Rec) (svc : Nat → ServiceOutcome) : Nat :=
  match analyzeArticleBody article (svc 0) with
  | .ok _ => 1
  | .error _ =>
    match analyzeArticleBody article (svc 1) with
    | .ok _ => 2
    | .error _ => 3

/-! ## `analyze_batch` and `analyze_locations` (analyzer.py:209-276) -/

/-- A service oracle for a whole run: per article, per attempt. -/
abbrev Svc := Rec → Nat → ServiceOutcome

/-- The record `analyze_batch` appends for one article: the result of the
retry-wrapped `analyze_article` call, or — when that call raises — the
degraded record of the `except` handler (analyzer.py:224-241). -/
def processOneCaught (svc : Svc) (article : Rec) : Rec :=
  match retryCall article (svc article) with
  | .ok r => r
  | .error e => analysisFailedRec article (pyStr e)

/-- Observable pacing events: one retry-wrapped `analyze_article` call, the
intra-batch `time.sleep(1)` (analyzer.py:232), and the inter-batch
`time.sleep(INTER_BATCH_DELAY)` (analyzer.py:273). -/
inductive Ev where
  | call : Ev
  | sleep1 : Ev
  | sleepBatch : Ev
deriving DecidableEq

/-- `analyze_batch` (analyzer.py:209-243) with its pacing trace: one record
appended per article; the 1-second sleep follows each article except the
last of the batch — and sits inside the `try`, so it is skipped when the
call raises. -/
def batchRun (svc : Svc) : List Rec → List Rec × List Ev
  | [] => ([], [])
  | [a] =>
    match retryCall a (svc a) with
    | .ok r => ([r], [Ev.call])
    | .error e => ([analysisFailedRec a (pyStr e)], [Ev.call])
  | a :: rest =>
    let hd : List Rec × List Ev :=
      match retryCall a (svc a) with
      | .ok r => ([r], [Ev.call, Ev.sleep1])
      | .error e => ([analysisFailedRec a (pyStr e)], [Ev.call])
    (hd.1 ++ (batchRun svc rest).1, hd.2 ++ (batchRun svc rest).2)

/-- The batch loop of `analyze_locations` (analyzer.py:263-273):
`for i in range(0, len(articles), BATCH_SIZE)` with `BATCH_SIZE = 3`
(analyzer.py:46), sleeping between batches exactly when
`i + BATCH_SIZE < len(articles)`. -/
def locLoop (svc : Svc) : List Rec → List Rec × List Ev
  | [] => ([], [])
  | [a] => batchRun svc [a]
  | [a, b] => batchRun svc [a, b]
  | [a, b, c] => batchRun svc [a, b, c]
  | a :: b :: c :: rest =>
    ((batchRun svc [a, b, c]).1 ++ (locLoop svc rest).1,
     (batchRun svc [a, b, c]).2 ++ [Ev.sleepBatch] ++ (locLoop svc rest).2)

/-- `analyze_locations` (analyzer.py:246-276): the returned record list. -/
def analyzeLocations (svc : Svc) (articles : List Rec) : List Rec :=
  (locLoop svc articles).1

/-- The pacing trace of `analyze_locations`. -/
def locTrace (svc : Svc) (articles : List Rec) : List Ev :=
  (locLoop svc articles).2

/-- The batches formed by the slice loop `articles[i:i+3]`. -/
def chunks3 {α : Type} : List α → List (List α)
  | [] => []
  | [a] => [[a]]
  | [a, b] => [[a, b]]
  | a :: b :: c :: rest => [a, b, c] :: chunks3 rest

/-- The article's categories render without raising — true of every record
matching the spec's ArticleRecord data model, where `categories` is a
sequence of string tags (spec §3). -/
def wfCategories (article : Rec) : Prop :=
  ∃ s, categoriesJoin article = .ok s

/-- Lists of events separated by `sep` (used to state the pacing policy:
a separator after every element except the last). -/
def sepBy {α : Type} (sep : List α) : List (List α) → List α
  | [] => []
  | [x] => x
  | x :: xs => x ++ sep ++ sepBy sep xs

/-! ## Helper lemmas -/

theorem dictGet_dictSet (k k₂ : String) (v : Json) :
    (r : Rec) → dictGet k (dictSet r k₂ v) = if k₂ = k then some v else dictGet k r
  | [] => by simp [dictGet, dictSet]
  | (k₃, v₃) :: rest => by
    by_cases h₃ : k₃ = k₂
    · subst h₃
      by_cases h : k₃ = k <;> simp [dictGet, dictSet, h]
    · by_cases h : k₃ = k
      · subst h
        have : ¬ k₂ = k₃ := fun hh => h₃ hh.symm
        simp [dictGet, dictSet, h₃, this]
      · simp [dictGet, dictSet, h₃, h, dictGet_dictSet k k₂ v rest]

theorem hasKey_dictSet (k k₂ : String) (v : Json) (r : Rec) :
    hasKey k (dictSet r k₂ v) = true ↔ (k₂ = k ∨ hasKey k r = true) := by
  by_cases h : k₂ = k <;> simp [hasKey, dictGet_dictSet, h]

/-- `analyze_article` raises exactly when the categories join (the only
statement outside its `try` blocks) raises. -/
theorem body_error_iff (article : Rec) (o : ServiceOutcome) (e : PyExc) :
    analyzeArticleBody article o = .error e ↔ categoriesJoin article = .error e := by
  unfold analyzeArticleBody
  cases hc : categoriesJoin article with
  | error e₂ => simp
  | ok s => cases o <;> simp

/-- Inversion for a successful `Except.bind`. -/
theorem bind_ok {α β : Type} (x : Except PyExc α) (f : α → Except PyExc β) (r : β)
    (h : Except.bind x f = .ok r) : ∃ a, x = .ok a ∧ f a = .ok r := by
  cases x with
  | error e => cases h
  | ok a => exact ⟨a, rfl, h⟩

/-- Every successful attachment extends the article with exactly the two
annotation fields. -/
theorem attach_ok_shape (article : Rec) (parsed : Json) (r : Rec)
    (h : attachResult article parsed = .ok r) :
    ∃ c ra, r = dictSet (dictSet article "cities" c) "rationale" ra := by
  unfold attachResult at h
  obtain ⟨hasC, -, h⟩ := bind_ok _ _ _ h
  obtain ⟨r₁, -, h⟩ := bind_ok _ _ _ h
  obtain ⟨hasR, -, h⟩ := bind_ok _ _ _ h
  obtain ⟨r₂, -, h⟩ := bind_ok _ _ _ h
  obtain ⟨c, -, h⟩ := bind_ok _ _ _ h
  obtain ⟨ra, -, h⟩ := bind_ok _ _ _ h
  cases h
  exact ⟨c, ra, rfl⟩

/-- Every record `innerHandled` yields is one of the three shapes: the
outer-handler record, the parse-failure record, or a success record
extending the article with the parsed `cities`/`rationale` values. -/
theorem innerHandled_shape (article : Rec) (content : String) :
    (∃ m, innerHandled article content = outerRec article m) ∨
    (∃ m, innerHandled article content = parseErrRec article m) ∨
    (∃ c ra, innerHandled article content = dictSet (dictSet article "cities" c) "rationale" ra) := by
  unfold innerHandled
  split
  case _ r heq =>
    right; right
    split at heq
    · cases heq
    · exact attach_ok_shape _ _ _ heq
  case _ m heq => exact .inr (.inl ⟨m, rfl⟩)
  case _ e h₁ heq => exact .inl ⟨pyStr e, rfl⟩

/-- Every successful result of the body is one of the three record shapes. -/
theorem body_ok_shape (article : Rec) (o : ServiceOutcome) (r : Rec)
    (h : analyzeArticleBody article o = .ok r) :
    (∃ m, r = outerRec article m) ∨ (∃ m, r = parseErrRec article m) ∨
    (∃ c ra, r = dictSet (dictSet article "cities" c) "rationale" ra) := by
  unfold analyzeArticleBody at h
  cases hc : categoriesJoin article with
  | error e => rw [hc] at h; simp at h
  | ok s =>
    rw [hc] at h
    cases o with
    | raise msg =>
      simp at h
      exact .inl ⟨msg, h.symm⟩
    | ok content =>
      simp at h
      rcases innerHandled_shape article content with ⟨m, hm⟩ | ⟨m, hm⟩ | ⟨c, ra, hm⟩
      · exact .inl ⟨m, h ▸ hm⟩
      · exact .inr (.inl ⟨m, h ▸ hm⟩)
      · exact .inr (.inr ⟨c, ra, h ▸ hm⟩)

/-- Under a well-formed article the body never raises. -/
theorem body_ok_of_wf (article : Rec) (o : ServiceOutcome) (h : wfCategories article) :
    ∃ r, analyzeArticleBody article o = .ok r := by
  cases hb : analyzeArticleBody article o with
  | ok r => exact ⟨r, rfl⟩
  | error e =>
    obtain ⟨s, hs⟩ := h
    rw [(body_error_iff article o e).mp hb] at hs
    cases hs

/-- Under a well-formed article the retry wrapper returns the first attempt's
result. -/
theorem retryCall_of_wf (article : Rec) (svc : Nat → ServiceOutcome)
    (h : wfCategories article) :
    retryCall article svc = analyzeArticleBody article (svc 0) := by
  obtain ⟨r, hr⟩ := body_ok_of_wf article (svc 0) h
  unfold retryCall
  rw [hr]

/-- `analyze_batch` appends exactly the per-article outcome for each article,
in order. -/
theorem batchRun_fst (svc : Svc) :
    (b : List Rec) → (batchRun svc b).1 = b.map (processOneCaught svc)
  | [] => rfl
  | [a] => by
    cases h : retryCall a (svc a) <;> simp [batchRun, processOneCaught, h]
  | a :: b :: rest => by
    have ih := batchRun_fst svc (b :: rest)
    cases h : retryCall a (svc a) <;> simp [batchRun, processOneCaught, h, ih]

/-- `analyze_locations` returns exactly the per-article outcomes, in order. -/
theorem locLoop_fst (svc : Svc) :
    (l : List Rec) → (locLoop svc l).1 = l.map (processOneCaught svc)
  | [] => rfl
  | [a] => batchRun_fst svc [a]
  | [a, b] => batchRun_fst svc [a, b]
  | [a, b, c] => batchRun_fst svc [a, b, c]
  | a :: b :: c :: d :: rest => by
    have ih := locLoop_fst svc (d :: rest)
    simp [locLoop, batchRun_fst svc [a, b, c], ih]

theorem analyzeLocations_eq_map (svc : Svc) (l : List Rec) :
    analyzeLocations svc l = l.map (processOneCaught svc) :=
  locLoop_fst svc l

theorem chunks3_flatten {α : Type} : (l : List α) → (chunks3 l).flatten = l
  | [] => rfl
  | [_] => rfl
  | [_, _] => rfl
  | a :: b :: c :: rest => by simp [chunks3, chunks3_flatten rest]

theorem chunks3_ne_nil {α : Type} : (a : α) → (l : List α) → chunks3 (a :: l) ≠ []
  | _, [] => by simp [chunks3]
  | _, [_] => by simp [chunks3]
  | _, _ :: _ :: _ => by simp [chunks3]

theorem chunks3_mem {α : Type} : (l : List α) → ∀ b ∈ chunks3 l, b ≠ [] ∧ b.length ≤ 3
  | [] => by simp [chunks3]
  | [a] => by simp [chunks3]
  | [a, b] => by simp [chunks3]
  | a :: b :: c :: rest => by
    intro x hx
    rw [chunks3] at hx
    rcases List.mem_cons.mp hx with h | h
    · subst h; simp
    · exact chunks3_mem rest x h

theorem chunks3_dropLast_len {α : Type} :
    (l : List α) → ∀ b ∈ (chunks3 l).dropLast, b.length = 3
  | [] => by simp [chunks3]
  | [a] => by simp [chunks3]
  | [a, b] => by simp [chunks3]
  | a :: b :: c :: rest => by
    cases rest with
    | nil => simp [chunks3]
    | cons d rest₂ =>
      intro x hx
      rw [chunks3, List.dropLast_cons_of_ne_nil (chunks3_ne_nil d rest₂)] at hx
      rcases List.mem_cons.mp hx with h | h
      · subst h; rfl
      · exact chunks3_dropLast_len (d :: rest₂) x h

theorem sepBy_cons_of_ne_nil {α : Type} (sep x : List α) (xs : List (List α))
    (h : xs ≠ []) : sepBy sep (x :: xs) = x ++ sep ++ sepBy sep xs := by
  cases xs with
  | nil => exact absurd rfl h
  | cons y ys => rfl

/-- Under well-formed articles, the trace of one batch is a call per article
with the 1-second sleep after every article except the last. -/
theorem batchRun_snd_wf (svc : Svc) :
    (b : List Rec) → (∀ a ∈ b, wfCategories a) →
      (batchRun svc b).2 = sepBy [Ev.sleep1] (b.map fun _ => [Ev.call])
  | [], _ => rfl
  | [a], h => by
    obtain ⟨r, hr⟩ := body_ok_of_wf a (svc a 0) (h a (by simp))
    have hc : retryCall a (svc a) = .ok r := (retryCall_of_wf a (svc a) (h a (by simp))).trans hr
    simp [batchRun, hc, sepBy]
  | a :: b :: rest, h => by
    obtain ⟨r, hr⟩ := body_ok_of_wf a (svc a 0) (h a (by simp))
    have hc : retryCall a (svc a) = .ok r := (retryCall_of_wf a (svc a) (h a (by simp))).trans hr
    have ih := batchRun_snd_wf svc (b :: rest) (fun x hx => h x (List.mem_cons_of_mem a hx))
    simp [batchRun, hc, ih, sepBy_cons_of_ne_nil]

/-- Under well-formed articles, the full trace is the batch traces separated
by the inter-batch sleep. -/
theorem locLoop_snd_wf (svc : Svc) :
    (l : List Rec) → (∀ a ∈ l, wfCategories a) →
      (locLoop svc l).2 =
        sepBy [Ev.sleepBatch]
          ((chunks3 l).map fun b => sepBy [Ev.sleep1] (b.map fun _ => [Ev.call]))
  | [], _ => rfl
  | [a], h => by simp [locLoop, chunks3, batchRun_snd_wf svc [a] h, sepBy]
  | [a, b], h => by simp [locLoop, chunks3, batchRun_snd_wf svc [a, b] h, sepBy]
  | [a, b, c], h => by simp [locLoop, chunks3, batchRun_snd_wf svc [a, b, c] h, sepBy]
  | a :: b :: c :: d :: rest, h => by
    have h₃ : ∀ x ∈ [a, b, c], wfCategories x := by
      intro x hx
      rcases List.mem_cons.mp hx with h₁ | hx <;>
        [skip; rcases List.mem_cons.mp hx with h₁ | hx] <;>
        [skip; skip; rcases List.mem_cons.mp hx with h₁ | hx]
      · exact h₁ ▸ h a (by simp)
      · exact h₁ ▸ h b (by simp)
      · exact h₁ ▸ h c (by simp)
      · cases hx
    have hrest : ∀ x ∈ d :: rest, wfCategories x := by
      intro x hx
      exact h x (by simp [hx])
    have ih := locLoop_snd_wf svc (d :: rest) hrest
    have hne : ((chunks3 (d :: rest)).map
        fun b => sepBy [Ev.sleep1] (b.map fun _ => [Ev.call])) ≠ [] := by
      simpa using chunks3_ne_nil d rest
    have e₁ : (locLoop svc (a :: b :: c :: d :: rest)).2 =
        (batchRun svc [a, b, c]).2 ++ [Ev.sleepBatch] ++ (locLoop svc (d :: rest)).2 := rfl
    rw [e₁, batchRun_snd_wf svc [a, b, c] h₃, ih, chunks3]
    have e₂ : ((([a, b, c] : List Rec) :: chunks3 (d :: rest)).map
        fun b => sepBy [Ev.sleep1] (b.map fun _ => [Ev.call])) =
        (sepBy [Ev.sleep1] (([a, b, c] : List Rec).map fun _ => [Ev.call])) ::
          ((chunks3 (d :: rest)).map fun b => sepBy [Ev.sleep1] (b.map fun _ => [Ev.call])) := rfl
    rw [e₂, sepBy_cons_of_ne_nil _ _ _ hne]

/-- A first-occurrence characterization of `findSub`: when the haystack
decomposes as `A ++ needle ++ rest` and no occurrence of the needle starts
inside `A` (`needle` is not an infix of `A ++ needle.dropLast`, the longest
part an earlier occurrence could reach into), the find returns `A.length` —
the position of the exhibited occurrence. -/
theorem findSub_first (needle : List Char) (hne : needle ≠ []) :
    (A : List Char) → (rest : List Char) →
      ¬ (needle <:+: (A ++ needle.dropLast)) →
      findSub needle (A ++ needle ++ rest) = some A.length
  | [], rest, _ => by
    cases needle with
    | nil => exact absurd rfl hne
    | cons n nt =>
      have hpre : (n :: nt).isPrefixOf ((n :: nt) ++ rest) = true :=
        List.isPrefixOf_iff_prefix.mpr (List.prefix_append _ _)
      simp only [List.nil_append, List.cons_append, findSub] at hpre ⊢
      rw [if_pos]
      · rfl
      · simp at hpre
        simp [hpre]
  | c :: A₂, rest, hno => by
    have hl : (c :: A₂) ++ needle ++ rest = c :: (A₂ ++ needle ++ rest) := by simp
    have hnotpre : ¬ needle.isPrefixOf (c :: (A₂ ++ needle ++ rest)) = true := by
      intro hpre
      apply hno
      have hp : needle <+: ((c :: A₂) ++ needle ++ rest) := by
        rw [hl]; exact List.isPrefixOf_iff_prefix.mp hpre
      have hlen : needle.length ≤ ((c :: A₂).length + (needle.length - 1)) := by
        have : 1 ≤ needle.length := List.length_pos.mpr hne
        simp only [List.length_cons]
        omega
      have htake : needle <+: (((c :: A₂) ++ needle ++ rest).take
          ((c :: A₂).length + (needle.length - 1))) :=
        List.prefix_take_iff.mpr ⟨hp, hlen⟩
      have heq : (((c :: A₂) ++ needle ++ rest).take
          ((c :: A₂).length + (needle.length - 1))) = (c :: A₂) ++ needle.dropLast := by
        rw [List.append_assoc, List.take_append, List.take_append_of_le_length (by omega),
          List.dropLast_eq_take]
      exact (heq ▸ htake).isInfix
    have hrec := findSub_first needle hne A₂ rest (fun hinf => hno (List.infix_cons hinf))
    rw [hl, findSub, if_neg hnotpre, hrec]
    rfl

/-- First occurrence of a single character. -/
theorem findSub_singleton (ch : Char) :
    (U : List Char) → (V : List Char) → ch ∉ U →
      findSub [ch] (U ++ ch :: V) = some U.length := by
  intro U V hc
  have h₁ : ¬ ([ch] <:+: (U ++ [ch].dropLast)) := by
    simp only [List.dropLast_single, List.append_nil]
    intro hinf
    exact hc (hinf.subset (by simp))
  have h₂ : U ++ ch :: V = U ++ [ch] ++ V := by simp
  rw [h₂, findSub_first [ch] (by simp) U V h₁]

theorem hasKey_dictSet_self (k : String) (v : Json) (r : Rec) :
    hasKey k (dictSet r k v) = true := by
  simp [hasKey, dictGet_dictSet]

theorem hasKey_dictSet_of (k k₂ : String) (v : Json) (r : Rec)
    (h : hasKey k r = true) : hasKey k (dictSet r k₂ v) = true := by
  by_cases hk : k₂ = k
  · simp [hasKey, dictGet_dictSet, hk]
  · simpa [hasKey, dictGet_dictSet, hk] using h

/-- A successful retry-wrapped call is a successful execution of the body on
one of the attempts' service outcomes. -/
theorem retryCall_ok_inv (article : Rec) (svc : Nat → ServiceOutcome) (r : Rec)
    (h : retryCall article svc = .ok r) :
    ∃ o, analyzeArticleBody article o = .ok r := by
  unfold retryCall at h
  cases h₀ : analyzeArticleBody article (svc 0) with
  | ok r₀ =>
    rw [h₀] at h
    simp at h
    exact ⟨svc 0, h ▸ h₀⟩
  | error e₀ =>
    rw [h₀] at h
    cases h₁ : analyzeArticleBody article (svc 1) with
    | ok r₁ =>
      rw [h₁] at h
      simp at h
      exact ⟨svc 1, h ▸ h₁⟩
    | error e₁ =>
      rw [h₁] at h
      cases h₂ : analyzeArticleBody article (svc 2) with
      | ok r₂ =>
        rw [h₂] at h
        simp at h
        exact ⟨svc 2, h ▸ h₂⟩
      | error e₂ =>
        rw [h₂] at h
        simp at h

/-- The record `analyze_batch` appends for an article is always an extension
of that article by `cities` and `rationale`, optionally followed by
`error`. -/
theorem processOne_shape (svc : Svc) (a : Rec) :
    ∃ c ra, processOneCaught svc a = dictSet (dictSet a "cities" c) "rationale" ra
      ∨ ∃ er, processOneCaught svc a =
          dictSet (dictSet (dictSet a "cities" c) "rationale" ra) "error" er := by
  unfold processOneCaught
  cases hr : retryCall a (svc a) with
  | error e =>
    exact ⟨Json.arr [], Json.str "Analysis failed",
      .inr ⟨Json.str (pyStr e), rfl⟩⟩
  | ok r =>
    obtain ⟨o, ho⟩ := retryCall_ok_inv a (svc a) r hr
    rcases body_ok_shape a o r ho with ⟨m, hm⟩ | ⟨m, hm⟩ | ⟨c, ra, hm⟩
    · exact ⟨Json.arr [], Json.str ("Error: " ++ m), .inl hm⟩
    · exact ⟨Json.arr [], Json.str "Error parsing analysis results",
        .inr ⟨Json.str m, hm⟩⟩
    · exact ⟨c, ra, .inl hm⟩

/-! ## Claims -/

/-- C1: `analyze_locations` never raises — in the embedding the driver is a
total function on every input and oracle, producing one record per article
(first conjunct) — and whenever the retry-wrapped `analyze_article` call
raises, `analyze_batch` catches the exception and substitutes the degraded
record with `cities = []`, `rationale = "Analysis failed"` and `error` set
to the failure description, which then appears in the output. -/
theorem c1_no_throw_and_substitution (svc : Svc) (articles : List Rec)
    (article : Rec) (e : PyExc)
    (herr : retryCall article (svc article) = .error e) :
    (analyzeLocations svc articles).length = articles.length
    ∧ processOneCaught svc article = analysisFailedRec article (pyStr e)
    ∧ dictGet "cities" (processOneCaught svc article) = some (Json.arr [])
    ∧ dictGet "rationale" (processOneCaught svc article) = some (Json.str "Analysis failed")
    ∧ dictGet "error" (processOneCaught svc article) = some (Json.str (pyStr e))
    ∧ (article ∈ articles →
        analysisFailedRec article (pyStr e) ∈ analyzeLocations svc articles) := by
  have hp : processOneCaught svc article = analysisFailedRec article (pyStr e) := by
    unfold processOneCaught
    rw [herr]
  refine ⟨?_, hp, ?_, ?_, ?_, ?_⟩
  · rw [analyzeLocations_eq_map]
    exact List.length_map articles _
  · rw [hp]
    simp [analysisFailedRec, dictGet_dictSet]
  · rw [hp]
    simp [analysisFailedRec, dictGet_dictSet]
  · rw [hp]
    simp [analysisFailedRec, dictGet_dictSet]
  · intro hmem
    rw [analyzeLocations_eq_map]
    exact List.mem_map.mpr ⟨article, hmem, hp⟩

/-- Witness for C1 at a concrete input: an article whose `categories` value
is `None` makes the categories join raise on every attempt, so the
retry-wrapped call raises a `RetryError` and `analyze_batch` substitutes the
degraded record. -/
theorem c1_witness :
    (analyzeLocations (fun _ _ => .raise "x") [[("categories", Json.null)]]).length = 1
    ∧ processOneCaught (fun _ _ => .raise "x") [("categories", Json.null)] =
        analysisFailedRec [("categories", Json.null)]
          "RetryError: can only join an iterable, not NoneType"
    ∧ dictGet "cities" (processOneCaught (fun _ _ => .raise "x") [("categories", Json.null)]) =
        some (Json.arr [])
    ∧ dictGet "rationale" (processOneCaught (fun _ _ => .raise "x") [("categories", Json.null)]) =
        some (Json.str "Analysis failed")
    ∧ dictGet "error" (processOneCaught (fun _ _ => .raise "x") [("categories", Json.null)]) =
        some (Json.str "RetryError: can only join an iterable, not NoneType")
    ∧ ([("categories", Json.null)] ∈ ([[("categories", Json.null)]] : List Rec) →
        analysisFailedRec [("categories", Json.null)]
            "RetryError: can only join an iterable, not NoneType" ∈
          analyzeLocations (fun _ _ => .raise "x") [[("categories", Json.null)]]) :=
  c1_no_throw_and_substitution (fun _ _ => .raise "x") [[("categories", Json.null)]]
    [("categories", Json.null)]
    (.retryError (.typeError "can only join an iterable, not NoneType")) rfl

/-- C2: `analyze_locations` returns exactly one record per input article, in
input order — the i-th output is the outcome for the i-th input, so nothing
is dropped, reordered or duplicated. -/
theorem c2_order_preservation (svc : Svc) (articles : List Rec) :
    (analyzeLocations svc articles).length = articles.length
    ∧ ∀ i : Nat, (analyzeLocations svc articles)[i]? =
        (articles[i]?).map (processOneCaught svc) := by
  rw [analyzeLocations_eq_map]
  exact ⟨List.length_map articles _, fun i => List.getElem?_map _ articles i⟩

/-- C3: the claim says a failing service call is re-attempted up to 3 times
with backoff and that the final exception propagates to `analyze_batch`.
The code contradicts this (and its own docstring "Raises: Exception: If the
API request fails after retries"): the outer `except Exception` at
analyzer.py:200 catches the service exception inside the retried body, so
the tenacity wrapper sees a normal return — a service that raises on every
attempt yields the degraded "Error: ..." record after exactly one attempt,
and nothing propagates to `analyze_batch`. -/
theorem c3_service_failure_never_retried :
    retryCall [] (fun _ => .raise "Connection error") =
      .ok [("cities", Json.arr []), ("rationale", Json.str "Error: Connection error")]
    ∧ attemptsUsed [] (fun _ => .raise "Connection error") = 1 :=
  ⟨rfl, rfl⟩

/-- C4 counterexample: when the service call raises, the outer handler's
record has `cities = []` and `rationale = "Error: boom"`, but — contrary to
the claim — no `error` field is set (analyzer.py:204-207 assigns only
`cities` and `rationale`). -/
theorem c4_counterexample :
    analyzeArticleBody [("title", Json.str "t")] (.raise "boom") =
      .ok [("title", Json.str "t"), ("cities", Json.arr []),
        ("rationale", Json.str "Error: boom")]
    ∧ dictGet "error" [("title", Json.str "t"), ("cities", Json.arr []),
        ("rationale", Json.str "Error: boom")] = none :=
  ⟨rfl, rfl⟩

/-- C4 amended: if the service call fails, `analyze_article` returns —
without raising — a record with `cities = []` and
`rationale = "Error: <failure description>"`; the `error` field is not set
by this handler (it is whatever the input article had). -/
theorem c4_service_failure_record (article : Rec) (msg : String)
    (hw : wfCategories article) :
    analyzeArticleBody article (.raise msg) = .ok (outerRec article msg)
    ∧ dictGet "cities" (outerRec article msg) = some (Json.arr [])
    ∧ dictGet "rationale" (outerRec article msg) = some (Json.str ("Error: " ++ msg))
    ∧ dictGet "error" (outerRec article msg) = dictGet "error" article := by
  obtain ⟨s, hs⟩ := hw
  refine ⟨?_, ?_, ?_, ?_⟩
  · unfold analyzeArticleBody
    rw [hs]
  · simp [outerRec, dictGet_dictSet]
  · simp [outerRec, dictGet_dictSet]
  · simp [outerRec, dictGet_dictSet]

/-- Witness for C4 amended at a concrete input. -/
theorem c4_witness :
    analyzeArticleBody [] (.raise "boom") = .ok (outerRec [] "boom")
    ∧ dictGet "cities" (outerRec [] "boom") = some (Json.arr [])
    ∧ dictGet "rationale" (outerRec [] "boom") = some (Json.str ("Error: " ++ "boom"))
    ∧ dictGet "error" (outerRec [] "boom") = dictGet "error" ([] : Rec) :=
  c4_service_failure_record [] "boom" ⟨"", rfl⟩

/-- C5 counterexample: a response parsing to
`{"cities": 0, "rationale": ""}` flows through the success path verbatim, so
the output record's `cities` is the number `0` (not a sequence of strings)
and its `rationale` is the empty string. -/
theorem c5_counterexample :
    analyzeLocations (fun _ _ => .ok "\x7b\"cities\": 0, \"rationale\": \"\"\x7d") [[]] =
      [[("cities", Json.num 0), ("rationale", Json.str "")]]
    ∧ isStrList (Json.num 0) = false
    ∧ ("" : String).length = 0 :=
  ⟨rfl, rfl, rfl⟩

/-- C5 amended: every record `analyze_locations` returns carries both a
`cities` and a `rationale` field; the guarantees on their shape (a string
list, a non-empty string) hold on the degraded and defaulted paths, but a
successful parse copies the response object's values verbatim, whatever
their shape. -/
theorem c5_fields_always_present (svc : Svc) (articles : List Rec) (r : Rec)
    (hr : r ∈ analyzeLocations svc articles) :
    hasKey "cities" r = true ∧ hasKey "rationale" r = true := by
  rw [analyzeLocations_eq_map] at hr
  obtain ⟨a, -, ha⟩ := List.mem_map.mp hr
  subst ha
  obtain ⟨c, ra, hsh⟩ := processOne_shape svc a
  rcases hsh with hsh | ⟨er, hsh⟩ <;> rw [hsh]
  · exact ⟨hasKey_dictSet_of _ _ _ _ (hasKey_dictSet_self _ _ _),
      hasKey_dictSet_self _ _ _⟩
  · exact ⟨hasKey_dictSet_of _ _ _ _ (hasKey_dictSet_of _ _ _ _ (hasKey_dictSet_self _ _ _)),
      hasKey_dictSet_of _ _ _ _ (hasKey_dictSet_self _ _ _)⟩

/-- Witness for C5 amended at a concrete input. -/
theorem c5_witness :
    hasKey "cities" [("cities", Json.num 0), ("rationale", Json.str "")] = true
    ∧ hasKey "rationale" [("cities", Json.num 0), ("rationale", Json.str "")] = true :=
  c5_fields_always_present (fun _ _ => .ok "\x7b\"cities\": 0, \"rationale\": \"\"\x7d")
    [[]] [("cities", Json.num 0), ("rationale", Json.str "")] (by simp [analyzeLocations_eq_map]; rfl)

/-- C7: a response text on which JSON extraction/parsing fails yields —
without raising and with the retry wrapper making exactly one attempt — the
record with `cities = []`, `rationale = "Error parsing analysis results"`
and `error` set to the parser's failure description. -/
theorem c7_parse_failure_is_local (article : Rec) (content : String) (m : String)
    (hw : wfCategories article)
    (hp : extractAndParse content = .error (.jsonDecodeError m)) :
    analyzeArticleBody article (.ok content) = .ok (parseErrRec article m)
    ∧ retryCall article (fun _ => .ok content) = .ok (parseErrRec article m)
    ∧ attemptsUsed article (fun _ => .ok content) = 1
    ∧ dictGet "cities" (parseErrRec article m) = some (Json.arr [])
    ∧ dictGet "rationale" (parseErrRec article m) =
        some (Json.str "Error parsing analysis results")
    ∧ dictGet "error" (parseErrRec article m) = some (Json.str m) := by
  obtain ⟨s, hs⟩ := hw
  have hinner : innerHandled article content = parseErrRec article m := by
    unfold innerHandled
    rw [hp]
  have hbody : analyzeArticleBody article (.ok content) = .ok (parseErrRec article m) := by
    unfold analyzeArticleBody
    rw [hs]
    exact congrArg Except.ok hinner
  refine ⟨hbody, ?_, ?_, ?_, ?_, ?_⟩
  · unfold retryCall
    rw [hbody]
  · unfold attemptsUsed
    rw [hbody]
  · simp [parseErrRec, dictGet_dictSet]
  · simp [parseErrRec, dictGet_dictSet]
  · simp [parseErrRec, dictGet_dictSet]

/-- Witness for C7 at a concrete input: text with no `{` at all. -/
theorem c7_witness :
    analyzeArticleBody [] (.ok "not json at all") =
      .ok (parseErrRec [] "Expecting value")
    ∧ retryCall [] (fun _ => .ok "not json at all") =
        .ok (parseErrRec [] "Expecting value")
    ∧ attemptsUsed [] (fun _ => .ok "not json at all") = 1
    ∧ dictGet "cities" (parseErrRec [] "Expecting value") = some (Json.arr [])
    ∧ dictGet "rationale" (parseErrRec [] "Expecting value") =
        some (Json.str "Error parsing analysis results")
    ∧ dictGet "error" (parseErrRec [] "Expecting value") = some (Json.str "Expecting value") :=
  c7_parse_failure_is_local [] "not json at all" "Expecting value" ⟨"", rfl⟩ rfl

/-- C9: an article carrying none of the annotation keys is only extended:
every original field survives with its value unchanged, and every key of the
output is an original key or one of `cities`, `rationale`, `error`.  (The
source works on `article.copy()`, never the input dict itself; in the pure
embedding the input is immutable by construction.) -/
theorem c9_input_only_extended (svc : Svc) (article : Rec)
    (h₁ : dictGet "cities" article = none)
    (h₂ : dictGet "rationale" article = none)
    (h₃ : dictGet "error" article = none) :
    (∀ k v, dictGet k article = some v →
      dictGet k (processOneCaught svc article) = some v)
    ∧ (∀ k, hasKey k (processOneCaught svc article) = true →
        hasKey k article = true ∨ k = "cities" ∨ k = "rationale" ∨ k = "error") := by
  obtain ⟨c, ra, hsh⟩ := processOne_shape svc article
  constructor
  · intro k v hkv
    have hkc : ¬ ("cities" = k) := fun he => by rw [← he] at hkv; rw [h₁] at hkv; cases hkv
    have hkr : ¬ ("rationale" = k) := fun he => by rw [← he] at hkv; rw [h₂] at hkv; cases hkv
    have hke : ¬ ("error" = k) := fun he => by rw [← he] at hkv; rw [h₃] at hkv; cases hkv
    rcases hsh with hsh | ⟨er, hsh⟩ <;> rw [hsh] <;>
      simp [dictGet_dictSet, hkc, hkr, hke, hkv]
  · intro k hk
    rcases hsh with hsh | ⟨er, hsh⟩ <;> rw [hsh] at hk
    · by_cases hc : "cities" = k
      · exact .inr (.inl hc.symm)
      · by_cases hrat : "rationale" = k
        · exact .inr (.inr (.inl hrat.symm))
        · left
          simpa [hasKey, dictGet_dictSet, hc, hrat] using hk
    · by_cases hc : "cities" = k
      · exact .inr (.inl hc.symm)
      · by_cases hrat : "rationale" = k
        · exact .inr (.inr (.inl hrat.symm))
        · by_cases herr : "error" = k
          · exact .inr (.inr (.inr herr.symm))
          · left
            simpa [hasKey, dictGet_dictSet, hc, hrat, herr] using hk

/-- Witness for C9 at a concrete input. -/
theorem c9_witness :
    ((∀ k v, dictGet k [("title", Json.str "t")] = some v →
      dictGet k (processOneCaught (fun _ _ => .raise "x") [("title", Json.str "t")]) = some v)
    ∧ (∀ k, hasKey k (processOneCaught (fun _ _ => .raise "x") [("title", Json.str "t")]) = true →
        hasKey k [("title", Json.str "t")] = true ∨
          k = "cities" ∨ k = "rationale" ∨ k = "error")) :=
  c9_input_only_extended (fun _ _ => .raise "x") [("title", Json.str "t")] rfl rfl rfl

/-- C10: a response that is valid JSON but not an object makes the
field-defaulting step raise a `TypeError` (not a `JSONDecodeError`), so the
outer service-failure handler runs: the record has `cities = []` and a
rationale beginning `"Error: "`, not the parse-failure rationale, and no
`error` field. -/
theorem c10_non_object_json_outer_handler :
    extractAndParse "5" = .ok (Json.num 5)
    ∧ attachResult [] (Json.num 5) =
        .error (.typeError "argument of type int is not iterable")
    ∧ isJsonDecodeError (.typeError "argument of type int is not iterable") = false
    ∧ analyzeArticleBody [] (.ok "5") =
        .ok [("cities", Json.arr []),
          ("rationale", Json.str "Error: argument of type int is not iterable")]
    ∧ extractAndParse "[1, 2]" = .ok (Json.arr [Json.num 1, Json.num 2])
    ∧ attachResult [] (Json.arr [Json.num 1, Json.num 2]) =
        .error (.typeError "list indices must be integers or slices, not str")
    ∧ analyzeArticleBody [] (.ok "[1, 2]") =
        .ok [("cities", Json.arr []),
          ("rationale", Json.str "Error: list indices must be integers or slices, not str")]
    ∧ dictGet "error" [("cities", Json.arr []),
        ("rationale", Json.str "Error: list indices must be integers or slices, not str")] = none :=
  ⟨rfl, rfl, rfl, rfl, rfl, rfl, rfl, rfl⟩

/-- C8: the batch loop partitions the input into contiguous batches of fixed
size 3 (all batches except the last have exactly 3 articles, none is empty
or larger, and 7 articles form batches of sizes 3, 3, 1); the trace shows
one call per article, the inter-batch sleep after every batch except the
last, and the 1-second intra-batch sleep after every article except the last
of its batch. -/
theorem c8_batching_and_pacing (svc : Svc) (articles : List Rec)
    (hw : ∀ a ∈ articles, wfCategories a) :
    (chunks3 articles).flatten = articles
    ∧ (∀ b ∈ (chunks3 articles).dropLast, b.length = 3)
    ∧ (∀ b ∈ chunks3 articles, b ≠ [] ∧ b.length ≤ 3)
    ∧ locTrace svc articles =
        sepBy [Ev.sleepBatch]
          ((chunks3 articles).map fun b => sepBy [Ev.sleep1] (b.map fun _ => [Ev.call]))
    ∧ (∀ a b c d e f g : Rec, articles = [a, b, c, d, e, f, g] →
        (chunks3 articles).map List.length = [3, 3, 1]) := by
  refine ⟨chunks3_flatten articles, chunks3_dropLast_len articles, chunks3_mem articles,
    locLoop_snd_wf svc articles hw, ?_⟩
  intro a b c d e f g h₇
  subst h₇
  rfl

/-- Witness for C8 at seven concrete articles. -/
theorem c8_witness :
    (chunks3 (List.replicate 7 [("title", Json.str "x")])).flatten =
        List.replicate 7 [("title", Json.str "x")]
    ∧ (∀ b ∈ (chunks3 (List.replicate 7 [("title", Json.str "x")])).dropLast, b.length = 3)
    ∧ (∀ b ∈ chunks3 (List.replicate 7 [("title", Json.str "x")]), b ≠ [] ∧ b.length ≤ 3)
    ∧ locTrace (fun _ _ => .ok "\x7b\x7d") (List.replicate 7 [("title", Json.str "x")]) =
        sepBy [Ev.sleepBatch]
          ((chunks3 (List.replicate 7 [("title", Json.str "x")])).map
            fun b => sepBy [Ev.sleep1] (b.map fun _ => [Ev.call]))
    ∧ (∀ a b c d e f g : Rec,
        List.replicate 7 [("title", Json.str "x")] = [a, b, c, d, e, f, g] →
        (chunks3 (List.replicate 7 [("title", Json.str "x")])).map List.length = [3, 3, 1]) :=
  c8_batching_and_pacing (fun _ _ => .ok "\x7b\x7d")
    (List.replicate 7 [("title", Json.str "x")])
    (by
      intro a ha
      simp [List.mem_replicate] at ha
      subst ha
      exact ⟨"", rfl⟩)

/-- C6: decode precedence.  (a) When the raw text decomposes as prose `A`,
the JSON-tagged open fence, fenced content `B`, the closing fence, and
trailing text `C` (the infix side conditions say these are the first
occurrences), only the fenced content `B` (stripped) is parsed.  (b)
Otherwise, when the stripped text does not begin with `{`, parsing restarts
at the first `{` of the raw text, recovering the trailing JSON after leading
prose.  (c), (d): the claim's two concrete examples, decoding end to end to
`cities == ["Paris"]` and to the recovered object. -/
theorem c6_decode_precedence :
    (∀ A B C : List Char,
      ¬ ("```json".toList <:+: (A ++ "```json".toList.dropLast)) →
      ¬ ("```".toList <:+: (B ++ "```".toList.dropLast)) →
      extractAndParse ⟨A ++ "```json".toList ++ B ++ "```".toList ++ C⟩ =
        jloads ⟨pyStripL B⟩)
    ∧ (∀ U V : List Char,
      strContains ⟨U ++ '\x7b' :: V⟩ "```json" = false →
      pyStartsWith (pyStrip ⟨U ++ '\x7b' :: V⟩) "\x7b" = false →
      '\x7b' ∉ U →
      extractAndParse ⟨U ++ '\x7b' :: V⟩ = jloads ⟨'\x7b' :: V⟩)
    ∧ analyzeArticleBody []
        (.ok "```json\n\x7b\"cities\": [\"Paris\"], \"rationale\": \"r\"\x7d\n```") =
        .ok [("cities", Json.arr [Json.str "Paris"]), ("rationale", Json.str "r")]
    ∧ analyzeArticleBody [] (.ok "Sure! \x7b\"cities\": [], \"rationale\": \"none\"\x7d") =
        .ok [("cities", Json.arr []), ("rationale", Json.str "none")] := by
  refine ⟨?_, ?_, rfl, rfl⟩
  · intro A B C h₁ h₂
    have hgroup : A ++ "```json".toList ++ B ++ "```".toList ++ C
        = A ++ "```json".toList ++ (B ++ "```".toList ++ C) := by
      simp [List.append_assoc]
    have hfind : findSub ("```json".toList)
        (A ++ "```json".toList ++ (B ++ "```".toList ++ C)) = some A.length :=
      findSub_first _ (by decide) A _ h₁
    have hAo : (A ++ "```json".toList).length = A.length + 7 := by simp
    have hdrop : (A ++ "```json".toList ++ (B ++ "```".toList ++ C)).drop (A.length + 7)
        = B ++ "```".toList ++ C := by
      rw [← hAo]
      exact List.drop_left _ _
    have hfind₂ : findSub ("```".toList) (B ++ "```".toList ++ C) = some B.length :=
      findSub_first _ (by decide) B C h₂
    have htake : (B ++ "```".toList ++ C).take B.length = B := by
      rw [List.append_assoc]
      exact List.take_left _ _
    have hmk : ((⟨A ++ "```json".toList ++ B ++ "```".toList ++ C⟩ : String)).toList
        = A ++ "```json".toList ++ B ++ "```".toList ++ C := rfl
    have hcont : strContains ⟨A ++ "```json".toList ++ B ++ "```".toList ++ C⟩
        "```json" = true := by
      unfold strContains
      rw [hmk, hgroup, hfind]
      rfl
    have hfseg : fencedSegment ⟨A ++ "```json".toList ++ B ++ "```".toList ++ C⟩
        = some ⟨pyStripL B⟩ := by
      unfold fencedSegment
      rw [hmk, hgroup]
      simp only [hfind, hdrop, hfind₂, htake]
    unfold extractAndParse
    rw [hcont, hfseg]
    simp
  · intro U V h₁ h₂ h₃
    have hmk : ((⟨U ++ '\x7b' :: V⟩ : String)).toList = U ++ '\x7b' :: V := rfl
    have hfind : findSub ['\x7b'] (U ++ '\x7b' :: V) = some U.length :=
      findSub_singleton _ U V h₃
    have hdrop : (U ++ '\x7b' :: V).drop U.length = '\x7b' :: V := List.drop_left U _
    unfold extractAndParse
    rw [h₁]
    simp only [h₂, hmk, hfind, hdrop, Bool.false_eq_true, if_false]

/-- Witness for C6 at concrete inputs: prose followed by a fenced JSON block
(part a) and the claim's "Sure!" example with leading prose before the
brace (part b). -/
theorem c6_witness :
    (extractAndParse ⟨"Answer:\n".toList ++ "```json".toList ++
        "\n\x7b\"cities\": [\"Paris\"], \"rationale\": \"r\"\x7d\n".toList ++
        "```".toList ++ " done".toList⟩ =
      jloads ⟨pyStripL ("\n\x7b\"cities\": [\"Paris\"], \"rationale\": \"r\"\x7d\n".toList)⟩)
    ∧ (extractAndParse ⟨"Sure! ".toList ++
        '\x7b' :: "\"cities\": [], \"rationale\": \"none\"\x7d".toList⟩ =
      jloads ⟨'\x7b' :: "\"cities\": [], \"rationale\": \"none\"\x7d".toList⟩) :=
  ⟨c6_decode_precedence.1 "Answer:\n".toList _ " done".toList (by decide) (by decide),
   c6_decode_precedence.2.1 "Sure! ".toList _ (by decide) (by decide) (by decide)⟩

end NL
